import Mathlib

/-!
Verification of the DCAMOON portfolio ledger engine.

This file is a shallow embedding of the ledger engine of the DCAMOON
repository: `src/services/portfolio_service.py` together with the table
definitions of `src/database/models.py`.

Modelling conventions:

* Python `float` columns are modelled as exact rationals (`ℚ`);
  timestamps as natural numbers; nullable columns as `Option`.
* Python division raises `ZeroDivisionError` on a zero denominator (for
  `float` operands as well), so every division the source leaves
  unguarded is modelled by `pyDiv`, which fails on a zero denominator.
  Divisions the source guards with a conditional (`... if x > 0 else 0`)
  are modelled with the same conditional and rational division.
* Every mutating service call runs inside `db_session_scope`
  (`src/database/database.py`), which commits on normal exit and rolls
  back on any exception.  Operations are therefore modelled as functions
  `LedgerState → Except LedgerError (α × LedgerState)`; the `*State`
  wrappers return the unchanged input state on an error, modelling the
  rollback.
* SQLAlchemy queries `filter(...).first()` are modelled by `List.find?`,
  `.all()` by `List.filter` (row order = list order), mutation of a row
  object by replacing the first matching row, `session.delete` by
  removing the first matching row, and `session.add` by appending.
* Database-generated columns that the service never reads or writes
  (`id` of rows other than portfolios, `created_at`, `updated_at`,
  `executed_at`, and the unused `max_drawdown`/`volatility` columns) are
  omitted from the row structures.
-/

namespace DCAMOON

/-- Model of Python `str.upper()` as used for tickers and trade types:
each character is mapped to its upper-case form.  (Tickers and trade
types in this code base are plain ASCII strings.) -/
def pyUpper (s : String) : String :=
  ⟨s.data.map Char.toUpper⟩

/-- Row of the `portfolios` table (`database/models.py`, class
`Portfolio`). -/
structure Portfolio where
  id : String
  name : String
  description : Option String
  starting_cash : ℚ
  current_cash : ℚ
  is_active : Bool
deriving Repr, DecidableEq

/-- Row of the `positions` table (`database/models.py`, class
`Position`). -/
structure Position where
  portfolio_id : String
  ticker : String
  shares : ℚ
  average_cost : ℚ
  cost_basis : ℚ
  stop_loss : Option ℚ
deriving Repr, DecidableEq

/-- Row of the `trades` table (`database/models.py`, class `Trade`).
`cost_basis` is the nullable column commented "For sells, the original
cost basis"; `realized_pnl` the nullable column "For sells, the realized
profit/loss". -/
structure Trade where
  portfolio_id : String
  ticker : String
  trade_type : String
  shares : ℚ
  price : ℚ
  total_amount : ℚ
  execution_type : String
  status : String
  reason : Option String
  cost_basis : Option ℚ
  realized_pnl : Option ℚ
deriving Repr, DecidableEq

/-- Row of the `position_snapshots` table (`database/models.py`, class
`PositionSnapshot`). -/
structure PositionSnapshot where
  ticker : String
  shares : ℚ
  current_price : ℚ
  market_value : ℚ
  cost_basis : ℚ
  unrealized_pnl : ℚ
  unrealized_pnl_pct : ℚ
deriving Repr, DecidableEq

/-- Row of the `portfolio_snapshots` table (`database/models.py`, class
`PortfolioSnapshot`), with its owned `position_snapshots` children
nested, as in the SQLAlchemy relationship. -/
structure PortfolioSnapshot where
  portfolio_id : String
  snapshot_date : ℕ
  total_equity : ℚ
  cash_balance : ℚ
  total_positions_value : ℚ
  daily_return : ℚ
  total_return : ℚ
  total_return_pct : ℚ
  position_snapshots : List PositionSnapshot
deriving Repr, DecidableEq

/-- The persisted relations the ledger engine touches. -/
structure LedgerState where
  portfolios : List Portfolio
  positions : List Position
  trades : List Trade
  snapshots : List PortfolioSnapshot
deriving Repr, DecidableEq

/-- Errors raised by the ledger engine.  The source raises `ValueError`
with distinct messages; each message becomes a constructor carrying the
values interpolated into the message.  `zeroDivision` models Python's
`ZeroDivisionError`. -/
inductive LedgerError where
  | portfolioNotFound (portfolio_id : String)
  | insufficientCash (needed available : ℚ)
  | insufficientShares (needed available : ℚ)
  | invalidTradeType (trade_type : String)
  | noPositionFound (ticker : String)
  | zeroDivision
deriving Repr, DecidableEq

/-- Python division on rationals: raises `ZeroDivisionError` when the
denominator is zero (Python does this for `float` operands too). -/
def pyDiv (a b : ℚ) : Except LedgerError ℚ :=
  if b = 0 then .error .zeroDivision else .ok (a / b)

/-- Whether an `Except` result is a success. -/
def exceptOk : Except LedgerError α → Bool
  | .ok _ => true
  | .error _ => false

/-- Replace the first element satisfying `p` by its image under `f`
(model of mutating the row object returned by `filter(...).first()`). -/
def updateFirst (p : α → Bool) (f : α → α) : List α → List α
  | [] => []
  | x :: xs => if p x then f x :: xs else x :: updateFirst p f xs

/-- Remove the first element satisfying `p` (model of `session.delete`
on the row returned by `filter(...).first()`). -/
def removeFirst (p : α → Bool) : List α → List α
  | [] => []
  | x :: xs => if p x then xs else x :: removeFirst p xs

/-- The filter `Portfolio.id == portfolio_id`. -/
def portfolioKey (portfolio_id : String) : Portfolio → Bool :=
  fun pf => pf.id == portfolio_id

/-- The filter `Position.portfolio_id == pid, Position.ticker == ticker`. -/
def positionKey (portfolio_id ticker : String) : Position → Bool :=
  fun q => q.portfolio_id == portfolio_id && q.ticker == ticker

/-- Query `session.query(Portfolio).filter(Portfolio.id ==
portfolio_id).first()` as issued by `execute_trade` and
`create_daily_snapshot` (no `is_active` filter there). -/
def findPortfolio (st : LedgerState) (portfolio_id : String) : Option Portfolio :=
  st.portfolios.find? (portfolioKey portfolio_id)

/-- Query `session.query(Position).filter(Position.portfolio_id == pid,
Position.ticker == ticker).first()`. -/
def findPosition (st : LedgerState) (portfolio_id ticker : String) : Option Position :=
  st.positions.find? (positionKey portfolio_id ticker)

/-- Query `session.query(Position).filter(Position.portfolio_id ==
pid).all()` (row order modelled as list order). -/
def positionsOf (st : LedgerState) (portfolio_id : String) : List Position :=
  st.positions.filter (fun q => q.portfolio_id == portfolio_id)

/-- The snapshot rows of one portfolio. -/
def snapshotsOf (st : LedgerState) (portfolio_id : String) : List PortfolioSnapshot :=
  st.snapshots.filter (fun s => s.portfolio_id == portfolio_id)

/-- Query `order_by(desc(PortfolioSnapshot.snapshot_date)).first()`: the
row with the maximal `snapshot_date`.  SQL leaves the choice among
equal dates unspecified; this model keeps the earliest-inserted row
among ties. -/
def latestSnapshot : List PortfolioSnapshot → Option PortfolioSnapshot
  | [] => none
  | s :: rest =>
    match latestSnapshot rest with
    | none => some s
    | some t => some (if s.snapshot_date < t.snapshot_date then t else s)

/-- Embedding of `PortfolioService._execute_buy`
(`services/portfolio_service.py` lines 199-235): deduct
`total_amount` from the portfolio's cash, then update the existing
position to the weighted-average cost or create a new position.  The
division `total_cost / total_shares` is unguarded in the source, hence
`pyDiv`. -/
def executeBuy (st : LedgerState) (portfolio_id ticker : String)
    (shares price total_amount : ℚ) : Except LedgerError LedgerState :=
  let st1 : LedgerState :=
    { st with
      portfolios := updateFirst (portfolioKey portfolio_id)
        (fun pf => { pf with current_cash := pf.current_cash - total_amount })
        st.portfolios }
  -- In the source the cash update precedes the position query; the update
  -- does not touch the positions relation, so the query is issued on `st`.
  match findPosition st portfolio_id ticker with
  | some position =>
    let total_shares := position.shares + shares
    let total_cost := position.cost_basis + total_amount
    match pyDiv total_cost total_shares with
    | .error e => .error e
    | .ok avg =>
      .ok { st1 with
        positions := updateFirst (positionKey portfolio_id ticker)
          (fun q => { q with average_cost := avg, shares := total_shares,
                             cost_basis := total_cost })
          st1.positions }
  | none =>
    .ok { st1 with
      positions := st1.positions ++
        [{ portfolio_id := portfolio_id, ticker := ticker, shares := shares,
           average_cost := price, cost_basis := total_amount, stop_loss := none }] }

/-- Embedding of `PortfolioService._execute_sell`
(`services/portfolio_service.py` lines 237-274): compute
`cost_basis_sold = (shares / position.shares) * position.cost_basis` and
the realized P&L, add `total_amount` to cash, then delete the position
on a full exit or shrink it pro rata on a partial exit.  Both divisions
are unguarded in the source, hence `pyDiv`. -/
def executeSell (st : LedgerState) (portfolio_id ticker : String)
    (shares _price total_amount : ℚ) : Except LedgerError (ℚ × LedgerState) :=
  match findPosition st portfolio_id ticker with
  | none => .error (.noPositionFound ticker)
  | some position =>
    match pyDiv shares position.shares with
    | .error e => .error e
    | .ok ratio =>
      let cost_basis_sold := ratio * position.cost_basis
      let realized_pnl := total_amount - cost_basis_sold
      let st1 : LedgerState :=
        { st with
          portfolios := updateFirst (portfolioKey portfolio_id)
            (fun pf => { pf with current_cash := pf.current_cash + total_amount })
            st.portfolios }
      if position.shares = shares then
        .ok (realized_pnl,
          { st1 with
            positions := removeFirst (positionKey portfolio_id ticker) st1.positions })
      else
        match pyDiv (position.shares - shares) position.shares with
        | .error e => .error e
        | .ok remaining_ratio =>
          .ok (realized_pnl,
            { st1 with
              positions := updateFirst (positionKey portfolio_id ticker)
                (fun q => { q with shares := q.shares - shares,
                                   cost_basis := q.cost_basis * remaining_ratio })
                st1.positions })

/-- Embedding of `PortfolioService.execute_trade`
(`services/portfolio_service.py` lines 113-197).  Ticker and trade type
are upper-cased, the portfolio is loaded, the trade is validated
(insufficient cash for BUY, missing position or insufficient shares for
SELL, otherwise invalid trade type), a FILLED `Trade` row is created,
and the BUY/SELL cash and position updates are applied.  In the source
`session.add(trade)` precedes the position update and
`trade.realized_pnl` is assigned on the same ORM object before commit;
the position update neither reads nor writes the trades relation, so
the committed trades relation is the input list with the finalized
trade appended. -/
def executeTrade (st : LedgerState) (portfolio_id ticker trade_type : String)
    (shares price : ℚ) (execution_type : String) (reason : Option String) :
    Except LedgerError (Trade × LedgerState) :=
  let tick := pyUpper ticker
  let ty := pyUpper trade_type
  let total_amount := shares * price
  match findPortfolio st portfolio_id with
  | none => .error (.portfolioNotFound portfolio_id)
  | some portfolio =>
    if ty = "BUY" then
      if portfolio.current_cash < total_amount then
        .error (.insufficientCash total_amount portfolio.current_cash)
      else
        let trade : Trade :=
          { portfolio_id := portfolio_id, ticker := tick, trade_type := ty,
            shares := shares, price := price, total_amount := total_amount,
            execution_type := execution_type, status := "FILLED",
            reason := reason, cost_basis := none, realized_pnl := none }
        match executeBuy st portfolio_id tick shares price total_amount with
        | .error e => .error e
        | .ok st1 => .ok (trade, { st1 with trades := st1.trades ++ [trade] })
    else if ty = "SELL" then
      match findPosition st portfolio_id tick with
      | none => .error (.insufficientShares shares 0)
      | some position =>
        if position.shares < shares then
          .error (.insufficientShares shares position.shares)
        else
          let trade : Trade :=
            { portfolio_id := portfolio_id, ticker := tick, trade_type := ty,
              shares := shares, price := price, total_amount := total_amount,
              execution_type := execution_type, status := "FILLED",
              reason := reason, cost_basis := none, realized_pnl := none }
          match executeSell st portfolio_id tick shares price total_amount with
          | .error e => .error e
          | .ok (realized_pnl, st1) =>
            let trade := { trade with realized_pnl := some realized_pnl }
            .ok (trade, { st1 with trades := st1.trades ++ [trade] })
    else
      .error (.invalidTradeType ty)

/-- The state after an `execute_trade` call under `db_session_scope`:
the new state on success, the unchanged state on an exception
(rollback). -/
def execTradeState (st : LedgerState) (portfolio_id ticker trade_type : String)
    (shares price : ℚ) (execution_type : String) (reason : Option String) :
    LedgerState :=
  match executeTrade st portfolio_id ticker trade_type shares price execution_type reason with
  | .ok (_, st1) => st1
  | .error _ => st

/-- One requested trade of a sequence. -/
structure TradeReq where
  ticker : String
  trade_type : String
  shares : ℚ
  price : ℚ
deriving Repr, DecidableEq

/-- Run a sequence of `execute_trade` calls, collecting the executed
`Trade` rows; `none` as soon as one call fails. -/
def execTradeSeq (st : LedgerState) (portfolio_id : String) :
    List TradeReq → Option (List Trade × LedgerState)
  | [] => some ([], st)
  | rq :: rest =>
    match executeTrade st portfolio_id rq.ticker rq.trade_type rq.shares rq.price
        "MARKET" none with
    | .error _ => none
    | .ok (tr, st1) =>
      match execTradeSeq st1 portfolio_id rest with
      | none => none
      | some (ts, st2) => some (tr :: ts, st2)

/-- Sum of `total_amount` over the SELL trades of a list. -/
def sellTotal (ts : List Trade) : ℚ :=
  ((ts.filter (fun t => t.trade_type == "SELL")).map (·.total_amount)).sum

/-- Sum of `total_amount` over the BUY trades of a list. -/
def buyTotal (ts : List Trade) : ℚ :=
  ((ts.filter (fun t => t.trade_type == "BUY")).map (·.total_amount)).sum

/-- The per-position body of the snapshot loop in
`PortfolioService.create_daily_snapshot` (lines 321-344): oracle price
with fall-back to `average_cost`, market value, unrealized P&L, and the
percentage guarded by `if position.cost_basis > 0 else 0`. -/
def mkPositionSnapshot (oracle : String → Option ℚ) (position : Position) :
    PositionSnapshot :=
  let current_price :=
    match oracle position.ticker with
    | none => position.average_cost
    | some pr => pr
  let market_value := position.shares * current_price
  let unrealized_pnl := market_value - position.cost_basis
  let unrealized_pnl_pct :=
    if 0 < position.cost_basis then unrealized_pnl / position.cost_basis * 100 else 0
  { ticker := position.ticker, shares := position.shares,
    current_price := current_price, market_value := market_value,
    cost_basis := position.cost_basis, unrealized_pnl := unrealized_pnl,
    unrealized_pnl_pct := unrealized_pnl_pct }

/-- Embedding of `PortfolioService.create_daily_snapshot`
(`services/portfolio_service.py` lines 297-380).  The oracle is
`market_data_service.get_current_price`.  `total_return_pct` is guarded
by `if portfolio.starting_cash > 0 else 0` in the source; the
`daily_return` division by the previous snapshot's `total_equity` is
unguarded, hence `pyDiv`. -/
def createDailySnapshot (oracle : String → Option ℚ) (st : LedgerState)
    (portfolio_id : String) (snapshot_date : ℕ) :
    Except LedgerError (PortfolioSnapshot × LedgerState) :=
  match findPortfolio st portfolio_id with
  | none => .error (.portfolioNotFound portfolio_id)
  | some portfolio =>
    let position_snapshots := (positionsOf st portfolio_id).map (mkPositionSnapshot oracle)
    let total_positions_value := (position_snapshots.map (·.market_value)).sum
    let total_equity := portfolio.current_cash + total_positions_value
    let total_return := total_equity - portfolio.starting_cash
    let total_return_pct :=
      if 0 < portfolio.starting_cash then total_return / portfolio.starting_cash * 100 else 0
    let dret : Except LedgerError ℚ :=
      match latestSnapshot (snapshotsOf st portfolio_id) with
      | none => .ok 0
      | some previous =>
        match pyDiv (total_equity - previous.total_equity) previous.total_equity with
        | .error e => .error e
        | .ok q => .ok (q * 100)
    match dret with
    | .error e => .error e
    | .ok daily_return =>
      let snapshot : PortfolioSnapshot :=
        { portfolio_id := portfolio_id, snapshot_date := snapshot_date,
          total_equity := total_equity, cash_balance := portfolio.current_cash,
          total_positions_value := total_positions_value,
          daily_return := daily_return, total_return := total_return,
          total_return_pct := total_return_pct,
          position_snapshots := position_snapshots }
      .ok (snapshot, { st with snapshots := st.snapshots ++ [snapshot] })

/-- The state after a `create_daily_snapshot` call under
`db_session_scope` (rollback on an exception). -/
def createSnapshotState (oracle : String → Option ℚ) (st : LedgerState)
    (portfolio_id : String) (snapshot_date : ℕ) : LedgerState :=
  match createDailySnapshot oracle st portfolio_id snapshot_date with
  | .ok (_, st1) => st1
  | .error _ => st

/-- Embedding of `PortfolioService._create_portfolio_snapshot`
(`services/portfolio_service.py` lines 382-394): the initial snapshot
row for a freshly created portfolio (no position children). -/
def createPortfolioSnapshotRow (portfolio : Portfolio) (snapshot_date : ℕ) :
    PortfolioSnapshot :=
  { portfolio_id := portfolio.id, snapshot_date := snapshot_date,
    total_equity := portfolio.current_cash, cash_balance := portfolio.current_cash,
    total_positions_value := 0, daily_return := 0, total_return := 0,
    total_return_pct := 0, position_snapshots := [] }

/-- Embedding of `PortfolioService.create_portfolio`
(`services/portfolio_service.py` lines 26-61): insert the portfolio row
with `current_cash = starting_cash`, then its initial snapshot.  The
database-generated UUID is modelled as an explicit `pid` argument and
`datetime.now()` as the `now` argument. -/
def createPortfolio (st : LedgerState) (pid pname : String)
    (description : Option String) (starting_cash : ℚ) (now : ℕ) :
    Portfolio × LedgerState :=
  let portfolio : Portfolio :=
    { id := pid, name := pname, description := description,
      starting_cash := starting_cash, current_cash := starting_cash,
      is_active := true }
  let st1 : LedgerState := { st with portfolios := st.portfolios ++ [portfolio] }
  let st2 : LedgerState :=
    { st1 with snapshots := st1.snapshots ++ [createPortfolioSnapshotRow portfolio now] }
  (portfolio, st2)

/-! ### Concrete states used for witnesses and counterexamples -/

/-- A portfolio row with 100 starting and current cash. -/
def wPortfolio : Portfolio :=
  { id := "P", name := "Main", description := none,
    starting_cash := 100, current_cash := 100, is_active := true }

/-- A 10-share AAPL position bought at 10 (cost basis 100). -/
def wPosition : Position :=
  { portfolio_id := "P", ticker := "AAPL", shares := 10,
    average_cost := 10, cost_basis := 100, stop_loss := none }

/-- A one-portfolio, one-position ledger. -/
def wState : LedgerState :=
  { portfolios := [wPortfolio], positions := [wPosition], trades := [],
    snapshots := [] }

/-- A portfolio row with 50 of its 100 starting cash left. -/
def c7Portfolio : Portfolio :=
  { id := "P", name := "Main", description := none,
    starting_cash := 100, current_cash := 50, is_active := true }

/-- A snapshot whose `total_equity` is 0. -/
def c7SnapZero : PortfolioSnapshot :=
  { portfolio_id := "P", snapshot_date := 1, total_equity := 0,
    cash_balance := 0, total_positions_value := 0, daily_return := 0,
    total_return := 0, total_return_pct := 0, position_snapshots := [] }

/-- A ledger whose only prior snapshot has `total_equity = 0`. -/
def c7State : LedgerState :=
  { portfolios := [c7Portfolio], positions := [], trades := [],
    snapshots := [c7SnapZero] }

/-- A snapshot whose `total_equity` is 50. -/
def c7SnapPrev : PortfolioSnapshot :=
  { portfolio_id := "P", snapshot_date := 1, total_equity := 50,
    cash_balance := 50, total_positions_value := 0, daily_return := 0,
    total_return := -50, total_return_pct := -50, position_snapshots := [] }

/-- A ledger whose only prior snapshot has `total_equity = 50`. -/
def c7StateB : LedgerState :=
  { portfolios := [c7Portfolio], positions := [], trades := [],
    snapshots := [c7SnapPrev] }

/-- The `Trade` row of a successful result. -/
def tradeOf : Except LedgerError (Trade × LedgerState) → Option Trade
  | .ok (tr, _) => some tr
  | .error _ => none

/-- The trade row recorded for `BUY 2 MSFT @ 5` on `wState`. -/
def w1TradeBuy : Trade :=
  { portfolio_id := "P", ticker := "MSFT", trade_type := "BUY", shares := 2,
    price := 5, total_amount := 10, execution_type := "MARKET",
    status := "FILLED", reason := none, cost_basis := none, realized_pnl := none }

/-- The trade row recorded for `SELL 1 AAPL @ 7` after the MSFT buy. -/
def w1TradeSell : Trade :=
  { portfolio_id := "P", ticker := "AAPL", trade_type := "SELL", shares := 1,
    price := 7, total_amount := 7, execution_type := "MARKET",
    status := "FILLED", reason := none, cost_basis := none,
    realized_pnl := some (-3) }

/-- `wState` after `BUY 2 MSFT @ 5` then `SELL 1 AAPL @ 7`. -/
def w1Final : LedgerState :=
  { portfolios := [{ wPortfolio with current_cash := 97 }],
    positions := [{ wPosition with shares := 9, cost_basis := 90 },
      { portfolio_id := "P", ticker := "MSFT", shares := 2, average_cost := 5,
        cost_basis := 10, stop_loss := none }],
    trades := [w1TradeBuy, w1TradeSell], snapshots := [] }

/-- The trade row recorded for `SELL 5 AAPL @ 12` on `wState`. -/
def w6Trade : Trade :=
  { portfolio_id := "P", ticker := "AAPL", trade_type := "SELL", shares := 5,
    price := 12, total_amount := 60, execution_type := "MARKET",
    status := "FILLED", reason := none, cost_basis := none,
    realized_pnl := some 10 }

/-- `wState` after `SELL 5 AAPL @ 12`. -/
def w6State : LedgerState :=
  { portfolios := [{ wPortfolio with current_cash := 160 }],
    positions := [{ wPosition with shares := 5, cost_basis := 50 }],
    trades := [w6Trade], snapshots := [] }

/-! ### Helper lemmas about the list primitives -/

theorem find?_updateFirst {α : Type} (p : α → Bool) (f : α → α)
    (hp : ∀ a, p a = true → p (f a) = true) :
    ∀ l : List α, (updateFirst p f l).find? p = (l.find? p).map f := by
  intro l
  induction l with
  | nil => rfl
  | cons x xs ih =>
    by_cases hx : p x = true
    · simp [updateFirst, hx, List.find?_cons_of_pos, hp x hx]
    · have hx' : p x = false := by simpa using hx
      simp [updateFirst, hx', List.find?_cons_of_neg, ih]

theorem mem_updateFirst {α : Type} {p : α → Bool} {f : α → α} {x : α} :
    ∀ {l : List α}, x ∈ updateFirst p f l →
      x ∈ l ∨ ∃ y, l.find? p = some y ∧ x = f y := by
  intro l
  induction l with
  | nil => intro h; exact absurd h (by simp [updateFirst])
  | cons a l ih =>
    intro h
    by_cases ha : p a = true
    · rw [updateFirst, if_pos ha] at h
      rcases List.mem_cons.mp h with h | h
      · exact Or.inr ⟨a, List.find?_cons_of_pos _ ha, h⟩
      · exact Or.inl (List.mem_cons_of_mem _ h)
    · have ha' : p a = false := by simpa using ha
      rw [updateFirst, if_neg (by simp [ha'])] at h
      rcases List.mem_cons.mp h with h | h
      · exact Or.inl (h ▸ List.mem_cons_self a l)
      · rcases ih h with h | ⟨y, hy, hxy⟩
        · exact Or.inl (List.mem_cons_of_mem _ h)
        · exact Or.inr ⟨y, by rw [List.find?_cons_of_neg _ (by simp [ha'])]; exact hy, hxy⟩

theorem mem_removeFirst {α : Type} {p : α → Bool} {x : α} :
    ∀ {l : List α}, x ∈ removeFirst p l → x ∈ l := by
  intro l
  induction l with
  | nil => intro h; exact absurd h (by simp [removeFirst])
  | cons a l ih =>
    intro h
    by_cases ha : p a = true
    · rw [removeFirst, if_pos ha] at h
      exact List.mem_cons_of_mem _ h
    · rw [removeFirst, if_neg ha] at h
      rcases List.mem_cons.mp h with h | h
      · exact h ▸ List.mem_cons_self a l
      · exact List.mem_cons_of_mem _ (ih h)

theorem find?_removeFirst_of_unique {α : Type} {p : α → Bool} :
    ∀ {l : List α}, l.countP p ≤ 1 → (removeFirst p l).find? p = none := by
  intro l
  induction l with
  | nil => intro _; rfl
  | cons a l ih =>
    intro h
    by_cases ha : p a = true
    · rw [removeFirst, if_pos ha]
      rw [List.countP_cons, ha, if_pos rfl] at h
      have h0 : l.countP p = 0 := by omega
      rw [List.find?_eq_none]
      intro x hx
      simpa using List.countP_eq_zero.mp h0 x hx
    · have ha' : p a = false := by simpa using ha
      rw [removeFirst, if_neg ha]
      rw [List.find?_cons_of_neg _ (by simp [ha'])]
      rw [List.countP_cons, ha'] at h
      exact ih (by simpa using h)

/-! ### Anatomy of the ok paths of the trade operations -/

theorem find?_portfolios_update {l : List Portfolio} {pid : String} {pf : Portfolio}
    (f : Portfolio → Portfolio) (hf : ∀ q, (f q).id = q.id)
    (h : l.find? (portfolioKey pid) = some pf) :
    (updateFirst (portfolioKey pid) f l).find? (portfolioKey pid) = some (f pf) := by
  rw [find?_updateFirst _ _ (fun a ha => by simpa [portfolioKey, hf] using ha), h]
  rfl

theorem find?_positions_update {l : List Position} {pid T : String} {pos : Position}
    (f : Position → Position) (hf1 : ∀ q, (f q).portfolio_id = q.portfolio_id)
    (hf2 : ∀ q, (f q).ticker = q.ticker)
    (h : l.find? (positionKey pid T) = some pos) :
    (updateFirst (positionKey pid T) f l).find? (positionKey pid T) = some (f pos) := by
  rw [find?_updateFirst _ _ (fun a ha => by simpa [positionKey, hf1, hf2] using ha), h]
  rfl

theorem executeBuy_ok_parts {st : LedgerState} {pid T : String} {s p tot : ℚ}
    {st1 : LedgerState} (hok : executeBuy st pid T s p tot = .ok st1) :
    st1.portfolios = updateFirst (portfolioKey pid)
      (fun q => { q with current_cash := q.current_cash - tot }) st.portfolios ∧
    st1.trades = st.trades ∧ st1.snapshots = st.snapshots ∧
    ((∃ pos, findPosition st pid T = some pos ∧ pos.shares + s ≠ 0 ∧
        st1.positions = updateFirst (positionKey pid T)
          (fun q => { q with
              average_cost := (pos.cost_basis + tot) / (pos.shares + s),
              shares := pos.shares + s, cost_basis := pos.cost_basis + tot })
          st.positions) ∨
      (findPosition st pid T = none ∧
        st1.positions = st.positions ++
          [{ portfolio_id := pid, ticker := T, shares := s, average_cost := p,
             cost_basis := tot, stop_loss := none }])) := by
  simp only [executeBuy] at hok
  cases hfp : findPosition st pid T with
  | some pos =>
    rw [hfp] at hok
    simp only [pyDiv] at hok
    by_cases hz : pos.shares + s = 0
    · rw [if_pos hz] at hok
      cases hok
    · rw [if_neg hz] at hok
      cases hok
      refine ⟨rfl, rfl, rfl, Or.inl ⟨pos, rfl, hz, ?_⟩⟩
      rfl
  | none =>
    rw [hfp] at hok
    cases hok
    exact ⟨rfl, rfl, rfl, Or.inr ⟨rfl, rfl⟩⟩

theorem executeSell_ok_parts {st : LedgerState} {pid T : String} {s p tot pnl : ℚ}
    {st1 : LedgerState} (hok : executeSell st pid T s p tot = .ok (pnl, st1)) :
    ∃ pos, findPosition st pid T = some pos ∧ pos.shares ≠ 0 ∧
      pnl = tot - s / pos.shares * pos.cost_basis ∧
      st1.portfolios = updateFirst (portfolioKey pid)
        (fun q => { q with current_cash := q.current_cash + tot }) st.portfolios ∧
      st1.trades = st.trades ∧ st1.snapshots = st.snapshots ∧
      ((pos.shares = s ∧
          st1.positions = removeFirst (positionKey pid T) st.positions) ∨
        (pos.shares ≠ s ∧
          st1.positions = updateFirst (positionKey pid T)
            (fun q => { q with
                shares := q.shares - s,
                cost_basis := q.cost_basis * ((pos.shares - s) / pos.shares) })
            st.positions)) := by
  simp only [executeSell] at hok
  cases hfp : findPosition st pid T with
  | none => rw [hfp] at hok; cases hok
  | some pos =>
    rw [hfp] at hok
    simp only [pyDiv] at hok
    by_cases hz : pos.shares = 0
    · rw [if_pos hz] at hok
      cases hok
    · rw [if_neg hz] at hok
      simp only [] at hok
      by_cases hfull : pos.shares = s
      · rw [if_pos hfull] at hok
        cases hok
        exact ⟨pos, rfl, hz, rfl, rfl, rfl, rfl, Or.inl ⟨hfull, rfl⟩⟩
      · rw [if_neg hfull, if_neg hz] at hok
        simp only [] at hok
        cases hok
        exact ⟨pos, rfl, hz, rfl, rfl, rfl, rfl, Or.inr ⟨hfull, rfl⟩⟩

theorem exceptOk_exists {e : Except LedgerError α} (h : exceptOk e = true) :
    ∃ a, e = .ok a := by
  cases e with
  | ok a => exact ⟨a, rfl⟩
  | error _ => exact absurd h (by simp [exceptOk])

/-- Fields of the `Trade` row returned by a successful `execute_trade`. -/
theorem executeTrade_ok_record {st : LedgerState} {pid t ty : String} {s p : ℚ}
    {et : String} {r : Option String} {tr : Trade} {st' : LedgerState}
    (hok : executeTrade st pid t ty s p et r = .ok (tr, st')) :
    tr.portfolio_id = pid ∧ tr.ticker = pyUpper t ∧ tr.trade_type = pyUpper ty ∧
    tr.shares = s ∧ tr.price = p ∧ tr.total_amount = s * p ∧
    tr.execution_type = et ∧ tr.status = "FILLED" ∧ tr.reason = r ∧
    tr.cost_basis = none ∧
    (pyUpper ty = "SELL" → (tr.realized_pnl).isSome = true) ∧
    (pyUpper ty = "BUY" → tr.realized_pnl = none) := by
  simp only [executeTrade] at hok
  cases hpf : findPortfolio st pid with
  | none => rw [hpf] at hok; cases hok
  | some pf =>
    rw [hpf] at hok
    simp only [] at hok
    by_cases hb : pyUpper ty = "BUY"
    · rw [if_pos hb] at hok
      by_cases hc : pf.current_cash < s * p
      · rw [if_pos hc] at hok; cases hok
      · rw [if_neg hc] at hok
        cases hbuy : executeBuy st pid (pyUpper t) s p (s * p) with
        | error e => rw [hbuy] at hok; cases hok
        | ok st1 =>
          rw [hbuy] at hok
          simp only [] at hok
          cases hok
          refine ⟨rfl, rfl, hb.symm ▸ rfl, rfl, rfl, rfl, rfl, rfl, rfl, rfl, ?_, ?_⟩
          · intro hsl; exact absurd (hb.symm.trans hsl) (by decide)
          · intro _; rfl
    · rw [if_neg hb] at hok
      by_cases hsl : pyUpper ty = "SELL"
      · rw [if_pos hsl] at hok
        cases hfp : findPosition st pid (pyUpper t) with
        | none => rw [hfp] at hok; cases hok
        | some pos =>
          rw [hfp] at hok
          simp only [] at hok
          by_cases hlt : pos.shares < s
          · rw [if_pos hlt] at hok; cases hok
          · rw [if_neg hlt] at hok
            cases hsell : executeSell st pid (pyUpper t) s p (s * p) with
            | error e => rw [hsell] at hok; cases hok
            | ok pr =>
              obtain ⟨pnl, st1⟩ := pr
              rw [hsell] at hok
              simp only [] at hok
              cases hok
              refine ⟨rfl, rfl, hsl.symm ▸ rfl, rfl, rfl, rfl, rfl, rfl, rfl, rfl, ?_, ?_⟩
              · intro _; rfl
              · intro hb2; exact absurd (hsl.symm.trans hb2) (by decide)
      · rw [if_neg hsl] at hok; cases hok

/-- Cash effect of a successful `execute_trade` on the portfolio row. -/
theorem executeTrade_ok_cash {st : LedgerState} {pid t ty : String} {s p : ℚ}
    {et : String} {r : Option String} {tr : Trade} {st' : LedgerState} {pf : Portfolio}
    (hok : executeTrade st pid t ty s p et r = .ok (tr, st'))
    (hpf : findPortfolio st pid = some pf) :
    (tr.trade_type = "BUY" ∧ findPortfolio st' pid =
        some { pf with current_cash := pf.current_cash - tr.total_amount }) ∨
    (tr.trade_type = "SELL" ∧ findPortfolio st' pid =
        some { pf with current_cash := pf.current_cash + tr.total_amount }) := by
  simp only [executeTrade] at hok
  rw [hpf] at hok
  simp only [] at hok
  by_cases hb : pyUpper ty = "BUY"
  · rw [if_pos hb] at hok
    by_cases hc : pf.current_cash < s * p
    · rw [if_pos hc] at hok; cases hok
    · rw [if_neg hc] at hok
      cases hbuy : executeBuy st pid (pyUpper t) s p (s * p) with
      | error e => rw [hbuy] at hok; cases hok
      | ok st1 =>
        rw [hbuy] at hok
        simp only [] at hok
        cases hok
        obtain ⟨hports, -, -, -⟩ := executeBuy_ok_parts hbuy
        refine Or.inl ⟨hb.symm ▸ rfl, ?_⟩
        show st1.portfolios.find? (portfolioKey pid) = _
        rw [hports]
        exact find?_portfolios_update _ (fun q => rfl) hpf
  · rw [if_neg hb] at hok
    by_cases hsl : pyUpper ty = "SELL"
    · rw [if_pos hsl] at hok
      cases hfp : findPosition st pid (pyUpper t) with
      | none => rw [hfp] at hok; cases hok
      | some pos =>
        rw [hfp] at hok
        simp only [] at hok
        by_cases hlt : pos.shares < s
        · rw [if_pos hlt] at hok; cases hok
        · rw [if_neg hlt] at hok
          cases hsell : executeSell st pid (pyUpper t) s p (s * p) with
          | error e => rw [hsell] at hok; cases hok
          | ok pr =>
            obtain ⟨pnl, st1⟩ := pr
            rw [hsell] at hok
            simp only [] at hok
            cases hok
            obtain ⟨pos', -, -, -, hports, -, -, -⟩ := executeSell_ok_parts hsell
            refine Or.inr ⟨hsl.symm ▸ rfl, ?_⟩
            show st1.portfolios.find? (portfolioKey pid) = _
            rw [hports]
            exact find?_portfolios_update _ (fun q => rfl) hpf
    · rw [if_neg hsl] at hok; cases hok

/-- Position and trade-log effect of a successful `execute_trade`. -/
theorem executeTrade_ok_positions {st : LedgerState} {pid t ty : String} {s p : ℚ}
    {et : String} {r : Option String} {tr : Trade} {st' : LedgerState}
    (hok : executeTrade st pid t ty s p et r = .ok (tr, st')) :
    st'.snapshots = st.snapshots ∧ st'.trades = st.trades ++ [tr] ∧
    ((pyUpper ty = "BUY" ∧
        ((∃ pos, findPosition st pid (pyUpper t) = some pos ∧ pos.shares + s ≠ 0 ∧
            st'.positions = updateFirst (positionKey pid (pyUpper t))
              (fun q => { q with
                  average_cost := (pos.cost_basis + s * p) / (pos.shares + s),
                  shares := pos.shares + s,
                  cost_basis := pos.cost_basis + s * p }) st.positions) ∨
          (findPosition st pid (pyUpper t) = none ∧
            st'.positions = st.positions ++
              [{ portfolio_id := pid, ticker := pyUpper t, shares := s,
                 average_cost := p, cost_basis := s * p, stop_loss := none }]))) ∨
      (pyUpper ty = "SELL" ∧
        (∃ pos, findPosition st pid (pyUpper t) = some pos ∧ ¬ pos.shares < s ∧
          pos.shares ≠ 0 ∧
          tr.realized_pnl = some (s * p - s / pos.shares * pos.cost_basis) ∧
          ((pos.shares = s ∧
              st'.positions = removeFirst (positionKey pid (pyUpper t)) st.positions) ∨
            (pos.shares ≠ s ∧
              st'.positions = updateFirst (positionKey pid (pyUpper t))
                (fun q => { q with
                    shares := q.shares - s,
                    cost_basis := q.cost_basis * ((pos.shares - s) / pos.shares) })
                st.positions))))) := by
  simp only [executeTrade] at hok
  cases hpf : findPortfolio st pid with
  | none => rw [hpf] at hok; cases hok
  | some pf =>
    rw [hpf] at hok
    simp only [] at hok
    by_cases hb : pyUpper ty = "BUY"
    · rw [if_pos hb] at hok
      by_cases hc : pf.current_cash < s * p
      · rw [if_pos hc] at hok; cases hok
      · rw [if_neg hc] at hok
        cases hbuy : executeBuy st pid (pyUpper t) s p (s * p) with
        | error e => rw [hbuy] at hok; cases hok
        | ok st1 =>
          rw [hbuy] at hok
          simp only [] at hok
          cases hok
          obtain ⟨-, htr, hsnap, hbranch⟩ := executeBuy_ok_parts hbuy
          refine ⟨hsnap, by rw [htr], Or.inl ⟨hb, ?_⟩⟩
          rcases hbranch with ⟨pos, hfp, hnz, hpos⟩ | ⟨hfp, hpos⟩
          · exact Or.inl ⟨pos, hfp, hnz, hpos⟩
          · exact Or.inr ⟨hfp, hpos⟩
    · rw [if_neg hb] at hok
      by_cases hsl : pyUpper ty = "SELL"
      · rw [if_pos hsl] at hok
        cases hfp : findPosition st pid (pyUpper t) with
        | none => rw [hfp] at hok; cases hok
        | some pos =>
          rw [hfp] at hok
          simp only [] at hok
          by_cases hlt : pos.shares < s
          · rw [if_pos hlt] at hok; cases hok
          · rw [if_neg hlt] at hok
            cases hsell : executeSell st pid (pyUpper t) s p (s * p) with
            | error e => rw [hsell] at hok; cases hok
            | ok pr =>
              obtain ⟨pnl, st1⟩ := pr
              rw [hsell] at hok
              simp only [] at hok
              cases hok
              obtain ⟨pos', hfp', hz, hpnl, -, htr, hsnap, hbranch⟩ :=
                executeSell_ok_parts hsell
              have hpe : pos' = pos := Option.some.inj (hfp'.symm.trans hfp)
              subst hpe
              refine ⟨hsnap, by rw [htr], Or.inr ⟨hsl, pos', rfl, hlt, hz, ?_, ?_⟩⟩
              · show some pnl = _
                rw [hpnl]
              · exact hbranch
      · rw [if_neg hsl] at hok; cases hok

theorem executeBuy_error {st : LedgerState} {pid T : String} {s p tot : ℚ}
    {e : LedgerError} (h : executeBuy st pid T s p tot = .error e) :
    ∃ pos, findPosition st pid T = some pos ∧ pos.shares + s = 0 := by
  simp only [executeBuy] at h
  cases hfp : findPosition st pid T with
  | none => rw [hfp] at h; cases h
  | some pos =>
    rw [hfp] at h
    simp only [pyDiv] at h
    by_cases hz : pos.shares + s = 0
    · exact ⟨pos, rfl, hz⟩
    · rw [if_neg hz] at h; cases h

theorem executeSell_error {st : LedgerState} {pid T : String} {s p tot : ℚ}
    {e : LedgerError} (h : executeSell st pid T s p tot = .error e) :
    findPosition st pid T = none ∨
      ∃ pos, findPosition st pid T = some pos ∧ pos.shares = 0 := by
  simp only [executeSell] at h
  cases hfp : findPosition st pid T with
  | none => exact Or.inl rfl
  | some pos =>
    rw [hfp] at h
    simp only [pyDiv] at h
    by_cases hz : pos.shares = 0
    · exact Or.inr ⟨pos, rfl, hz⟩
    · rw [if_neg hz] at h
      simp only [] at h
      by_cases hfull : pos.shares = s
      · rw [if_pos hfull] at h; cases h
      · rw [if_neg hfull, if_neg hz] at h
        simp only [] at h
        cases h

/-- A BUY that passes validation succeeds (given that the weighted
average is well defined). -/
theorem executeTrade_buy_succeeds {st : LedgerState} {pid t ty : String} {s p : ℚ}
    {et : String} {r : Option String} {pf : Portfolio}
    (hpf : findPortfolio st pid = some pf) (hb : pyUpper ty = "BUY")
    (hcash : ¬ pf.current_cash < s * p)
    (hnz : ∀ pos, findPosition st pid (pyUpper t) = some pos → pos.shares + s ≠ 0) :
    exceptOk (executeTrade st pid t ty s p et r) = true := by
  simp only [executeTrade]
  rw [hpf]
  simp only []
  rw [hb, if_pos rfl, if_neg hcash]
  cases hbuy : executeBuy st pid (pyUpper t) s p (s * p) with
  | error e =>
    obtain ⟨pos, hfp, hz0⟩ := executeBuy_error hbuy
    exact absurd hz0 (hnz pos hfp)
  | ok st1 => rfl

/-- A SELL that passes validation succeeds (given the position's shares
are nonzero). -/
theorem executeTrade_sell_succeeds {st : LedgerState} {pid t ty : String} {s p : ℚ}
    {et : String} {r : Option String} {pf : Portfolio} {pos : Position}
    (hpf : findPortfolio st pid = some pf) (hsl : pyUpper ty = "SELL")
    (hfp : findPosition st pid (pyUpper t) = some pos)
    (hlt : ¬ pos.shares < s) (hz : pos.shares ≠ 0) :
    exceptOk (executeTrade st pid t ty s p et r) = true := by
  simp only [executeTrade]
  rw [hpf]
  simp only []
  rw [hsl, if_neg (by decide : ¬ ("SELL" : String) = "BUY"), if_pos rfl, hfp]
  simp only []
  rw [if_neg hlt]
  cases hsell : executeSell st pid (pyUpper t) s p (s * p) with
  | error e =>
    rcases executeSell_error hsell with hnone | ⟨pos', hfp', hz0⟩
    · rw [hfp] at hnone; cases hnone
    · have : pos' = pos := Option.some.inj (hfp'.symm.trans hfp)
      exact absurd (this ▸ hz0) hz
  | ok pr => rfl

/-- The insufficient-cash rejection of a BUY. -/
theorem executeTrade_insufficient_cash {st : LedgerState} {pid t ty : String}
    {s p : ℚ} {et : String} {r : Option String} {pf : Portfolio}
    (hpf : findPortfolio st pid = some pf) (hb : pyUpper ty = "BUY")
    (hc : pf.current_cash < s * p) :
    executeTrade st pid t ty s p et r =
      .error (.insufficientCash (s * p) pf.current_cash) := by
  simp only [executeTrade]
  rw [hpf]
  simp only []
  rw [hb, if_pos rfl, if_pos hc]

/-- The insufficient-shares rejection of a SELL with no position. -/
theorem executeTrade_sell_no_position {st : LedgerState} {pid t ty : String}
    {s p : ℚ} {et : String} {r : Option String} {pf : Portfolio}
    (hpf : findPortfolio st pid = some pf) (hsl : pyUpper ty = "SELL")
    (hfp : findPosition st pid (pyUpper t) = none) :
    executeTrade st pid t ty s p et r = .error (.insufficientShares s 0) := by
  simp only [executeTrade]
  rw [hpf]
  simp only []
  rw [hsl, if_neg (by decide : ¬ ("SELL" : String) = "BUY"), if_pos rfl, hfp]

/-- The insufficient-shares rejection of a SELL with too few shares. -/
theorem executeTrade_sell_insufficient {st : LedgerState} {pid t ty : String}
    {s p : ℚ} {et : String} {r : Option String} {pf : Portfolio} {pos : Position}
    (hpf : findPortfolio st pid = some pf) (hsl : pyUpper ty = "SELL")
    (hfp : findPosition st pid (pyUpper t) = some pos) (hlt : pos.shares < s) :
    executeTrade st pid t ty s p et r =
      .error (.insufficientShares s pos.shares) := by
  simp only [executeTrade]
  rw [hpf]
  simp only []
  rw [hsl, if_neg (by decide : ¬ ("SELL" : String) = "BUY"), if_pos rfl, hfp]
  simp only []
  rw [if_pos hlt]

/-- The rollback of `db_session_scope`: a failed call leaves the state
unchanged. -/
theorem execTradeState_of_error {st : LedgerState} {pid t ty : String} {s p : ℚ}
    {et : String} {r : Option String} {e : LedgerError}
    (h : executeTrade st pid t ty s p et r = .error e) :
    execTradeState st pid t ty s p et r = st := by
  simp only [execTradeState, h]

theorem sellTotal_nil : sellTotal [] = 0 := rfl

theorem buyTotal_nil : buyTotal [] = 0 := rfl

theorem sellTotal_cons (t : Trade) (ts : List Trade) :
    sellTotal (t :: ts) =
      (if t.trade_type = "SELL" then t.total_amount else 0) + sellTotal ts := by
  by_cases h : t.trade_type = "SELL"
  · simp [sellTotal, List.filter_cons, h]
  · simp [sellTotal, List.filter_cons, h]

theorem buyTotal_cons (t : Trade) (ts : List Trade) :
    buyTotal (t :: ts) =
      (if t.trade_type = "BUY" then t.total_amount else 0) + buyTotal ts := by
  by_cases h : t.trade_type = "BUY"
  · simp [buyTotal, List.filter_cons, h]
  · simp [buyTotal, List.filter_cons, h]

/-- The cash ledger identity over a successfully executed sequence of
trades: the final cash is the initial cash plus the SELL totals minus
the BUY totals, and `starting_cash` is never touched. -/
theorem execTradeSeq_cash {pid : String} :
    ∀ (reqs : List TradeReq) (st : LedgerState) (ts : List Trade)
      (st' : LedgerState) (pf pf' : Portfolio),
      execTradeSeq st pid reqs = some (ts, st') →
      findPortfolio st pid = some pf → findPortfolio st' pid = some pf' →
      pf'.current_cash = pf.current_cash + sellTotal ts - buyTotal ts ∧
      pf'.starting_cash = pf.starting_cash := by
  intro reqs
  induction reqs with
  | nil =>
    intro st ts st' pf pf' hexec hpf hpf'
    simp only [execTradeSeq] at hexec
    cases hexec
    have hpe : pf = pf' := Option.some.inj (hpf.symm.trans hpf')
    subst hpe
    simp [sellTotal_nil, buyTotal_nil]
  | cons rq rest ih =>
    intro st ts st' pf pf' hexec hpf hpf'
    simp only [execTradeSeq] at hexec
    cases htr : executeTrade st pid rq.ticker rq.trade_type rq.shares rq.price
        "MARKET" none with
    | error e => rw [htr] at hexec; cases hexec
    | ok pr =>
      obtain ⟨tr, st1⟩ := pr
      rw [htr] at hexec
      simp only [] at hexec
      cases hseq : execTradeSeq st1 pid rest with
      | none => rw [hseq] at hexec; cases hexec
      | some pr2 =>
        obtain ⟨ts0, st2⟩ := pr2
        rw [hseq] at hexec
        simp only [] at hexec
        cases hexec
        rcases executeTrade_ok_cash htr hpf with ⟨hty, hpf1⟩ | ⟨hty, hpf1⟩
        · obtain ⟨ihc, ihs⟩ := ih st1 ts0 st' _ pf' hseq hpf1 hpf'
          constructor
          · rw [ihc, sellTotal_cons, buyTotal_cons, hty]
            rw [if_neg (by decide : ¬ ("BUY" : String) = "SELL"), if_pos rfl]
            show _ = pf.current_cash + (0 + sellTotal ts0) -
              (tr.total_amount + buyTotal ts0)
            ring
          · exact ihs
        · obtain ⟨ihc, ihs⟩ := ih st1 ts0 st' _ pf' hseq hpf1 hpf'
          constructor
          · rw [ihc, sellTotal_cons, buyTotal_cons, hty]
            rw [if_pos rfl, if_neg (by decide : ¬ ("SELL" : String) = "BUY")]
            show _ = pf.current_cash + (tr.total_amount + sellTotal ts0) -
              (0 + buyTotal ts0)
            ring
          · exact ihs

/-! ### The claims -/

/-- C1: over every successfully executed sequence of trades with
positive shares and price, the portfolio's `current_cash` equals
`starting_cash` plus the sum of `total_amount` over the executed SELL
trades minus the sum over the executed BUY trades (holding at every
point in time since every prefix is itself such a sequence). -/
theorem cash_conservation (st : LedgerState) (pid : String)
    (reqs : List TradeReq) (ts : List Trade) (st' : LedgerState)
    (pf pf' : Portfolio)
    (hpos : ∀ rq ∈ reqs, 0 < rq.shares ∧ 0 < rq.price)
    (hexec : execTradeSeq st pid reqs = some (ts, st'))
    (hpf : findPortfolio st pid = some pf)
    (hstart : pf.current_cash = pf.starting_cash)
    (hpf' : findPortfolio st' pid = some pf') :
    pf'.current_cash = pf.starting_cash + sellTotal ts - buyTotal ts ∧
    pf'.starting_cash = pf.starting_cash := by
  obtain ⟨h1, h2⟩ := execTradeSeq_cash reqs st ts st' pf pf' hexec hpf hpf'
  rw [h1, hstart]
  exact ⟨rfl, h2⟩

/-- Witness for C1: on `wState`, `BUY 2 MSFT @ 5` then `SELL 1 AAPL @ 7`
ends with cash 97 = 100 + 7 - 10. -/
theorem cash_conservation_witness :
    ({ wPortfolio with current_cash := 97 } : Portfolio).current_cash =
      wPortfolio.starting_cash + sellTotal [w1TradeBuy, w1TradeSell] -
        buyTotal [w1TradeBuy, w1TradeSell] ∧
    ({ wPortfolio with current_cash := 97 } : Portfolio).starting_cash =
      wPortfolio.starting_cash := by
  have hA : pyUpper "AAPL" = "AAPL" := by decide
  have hM : pyUpper "MSFT" = "MSFT" := by decide
  have hB : pyUpper "BUY" = "BUY" := by decide
  have hS : pyUpper "SELL" = "SELL" := by decide
  have hSB : ("SELL" : String) ≠ "BUY" := by decide
  have hAM : (("AAPL" : String) == "MSFT") = false := by decide
  have hexec : execTradeSeq wState "P" [⟨"MSFT", "BUY", 2, 5⟩, ⟨"AAPL", "SELL", 1, 7⟩] =
      some ([w1TradeBuy, w1TradeSell], w1Final) := by
    norm_num [execTradeSeq, executeTrade, executeBuy, executeSell, pyDiv,
      findPortfolio, findPosition, portfolioKey, positionKey, updateFirst,
      removeFirst, wState, wPortfolio, wPosition, w1TradeBuy, w1TradeSell,
      w1Final, hA, hM, hB, hS, hSB, hAM]
  exact cash_conservation wState "P" [⟨"MSFT", "BUY", 2, 5⟩, ⟨"AAPL", "SELL", 1, 7⟩]
    [w1TradeBuy, w1TradeSell] w1Final wPortfolio
    { wPortfolio with current_cash := 97 }
    (by intro rq hrq; fin_cases hrq <;> norm_num)
    hexec (by decide) rfl (by decide)

/-- C3: a BUY whose `shares * price` exceeds the portfolio's current
cash fails with the insufficient-cash error reporting required vs.
available; a SELL with no position for the ticker, or with fewer shares
than requested, fails with the insufficient-shares error reporting
required vs. available (0 when no position exists); and in every such
failure no state (cash, positions, trades) is mutated. -/
theorem trade_rejection_no_mutation (st : LedgerState) (pid t ty : String)
    (s p : ℚ) (et : String) (r : Option String) (pf : Portfolio)
    (hpf : findPortfolio st pid = some pf) :
    (pyUpper ty = "BUY" → pf.current_cash < s * p →
      executeTrade st pid t ty s p et r =
        .error (.insufficientCash (s * p) pf.current_cash) ∧
      execTradeState st pid t ty s p et r = st) ∧
    (pyUpper ty = "SELL" → findPosition st pid (pyUpper t) = none →
      executeTrade st pid t ty s p et r = .error (.insufficientShares s 0) ∧
      execTradeState st pid t ty s p et r = st) ∧
    (∀ pos, pyUpper ty = "SELL" → findPosition st pid (pyUpper t) = some pos →
      pos.shares < s →
      executeTrade st pid t ty s p et r =
        .error (.insufficientShares s pos.shares) ∧
      execTradeState st pid t ty s p et r = st) := by
  refine ⟨?_, ?_, ?_⟩
  · intro hb hc
    have h := @executeTrade_insufficient_cash st pid t ty s p et r pf hpf hb hc
    exact ⟨h, execTradeState_of_error h⟩
  · intro hsl hfp
    have h := @executeTrade_sell_no_position st pid t ty s p et r pf hpf hsl hfp
    exact ⟨h, execTradeState_of_error h⟩
  · intro pos hsl hfp hlt
    have h := @executeTrade_sell_insufficient st pid t ty s p et r pf pos hpf hsl hfp hlt
    exact ⟨h, execTradeState_of_error h⟩

/-- Witness for C3 on `wState`: an over-budget BUY, a SELL of an unheld
ticker, and an oversized SELL are each rejected without mutation. -/
theorem trade_rejection_no_mutation_witness :
    (executeTrade wState "P" "AAPL" "BUY" 200 1 "MARKET" none =
        .error (.insufficientCash 200 100) ∧
      execTradeState wState "P" "AAPL" "BUY" 200 1 "MARKET" none = wState) ∧
    (executeTrade wState "P" "TSLA" "SELL" 1 7 "MARKET" none =
        .error (.insufficientShares 1 0) ∧
      execTradeState wState "P" "TSLA" "SELL" 1 7 "MARKET" none = wState) ∧
    (executeTrade wState "P" "AAPL" "SELL" 20 7 "MARKET" none =
        .error (.insufficientShares 20 10) ∧
      execTradeState wState "P" "AAPL" "SELL" 20 7 "MARKET" none = wState) := by
  have hpf : findPortfolio wState "P" = some wPortfolio := by decide
  refine ⟨?_, ?_, ?_⟩
  · have h := (trade_rejection_no_mutation wState "P" "AAPL" "BUY" 200 1 "MARKET"
      none wPortfolio hpf).1 (by decide) (by norm_num [wPortfolio])
    refine ⟨?_, h.2⟩
    rw [h.1]
    norm_num [wPortfolio]
  · have h := (trade_rejection_no_mutation wState "P" "TSLA" "SELL" 1 7 "MARKET"
      none wPortfolio hpf).2.1 (by decide) (by decide)
    exact ⟨h.1, h.2⟩
  · have h := (trade_rejection_no_mutation wState "P" "AAPL" "SELL" 20 7 "MARKET"
      none wPortfolio hpf).2.2 wPosition (by decide) (by decide)
      (by norm_num [wPosition])
    exact ⟨h.1, h.2⟩

/-- C5: contrary to the claim, `execute_trade` performs no validation of
`shares > 0` or `price > 0`: a BUY of -20 shares at price 1 on a
portfolio with cash 100 and a 10-share AAPL position is accepted
(`total_amount = -20` passes the cash check), increases cash to 120, and
persists an AAPL position with -10 shares; only the trade-type check can
raise the invalid-argument error. -/
theorem nonpositive_shares_accepted :
    exceptOk (executeTrade wState "P" "AAPL" "BUY" (-20) 1 "MARKET" none) = true ∧
    findPortfolio (execTradeState wState "P" "AAPL" "BUY" (-20) 1 "MARKET" none) "P" =
      some { wPortfolio with current_cash := 120 } ∧
    findPosition (execTradeState wState "P" "AAPL" "BUY" (-20) 1 "MARKET" none)
        "P" "AAPL" =
      some { wPosition with shares := -10, average_cost := -8, cost_basis := 80 } := by
  have h1 : pyUpper "AAPL" = "AAPL" := by decide
  have h2 : pyUpper "BUY" = "BUY" := by decide
  refine ⟨?_, ?_, ?_⟩ <;>
    norm_num [executeTrade, execTradeState, executeBuy, pyDiv, findPortfolio,
      findPosition, portfolioKey, positionKey, updateFirst, wState, wPortfolio,
      wPosition, h1, h2, exceptOk]

/-- C6 counterexample: the SELL of 5 AAPL at 12 on `wState` succeeds
and stores `realized_pnl`, but the trade's `cost_basis` column (the cost
basis of the shares sold) is left `none`, not populated. -/
theorem trade_record_cost_basis_counterexample :
    (tradeOf (executeTrade wState "P" "AAPL" "SELL" 5 12 "MARKET" none)).map
        Trade.cost_basis = some none ∧
    (tradeOf (executeTrade wState "P" "AAPL" "SELL" 5 12 "MARKET" none)).map
        Trade.realized_pnl = some (some 10) := by
  have h1 : pyUpper "AAPL" = "AAPL" := by decide
  have h2 : pyUpper "SELL" = "SELL" := by decide
  have h3 : ("SELL" : String) ≠ "BUY" := by decide
  constructor <;>
    norm_num [executeTrade, executeSell, pyDiv, findPortfolio, findPosition,
      portfolioKey, positionKey, updateFirst, wState, wPortfolio, wPosition,
      h1, h2, h3, tradeOf]

/-- C6 (amended): every successful `execute_trade` returns a Trade row
with status FILLED, `total_amount = shares * price`, the upper-cased
ticker and trade type, and for a SELL a populated `realized_pnl`; the
`cost_basis` column (cost basis sold) is not populated — it remains
`none` on every trade, including SELLs. -/
theorem trade_record_contents (st : LedgerState) (pid t ty : String) (s p : ℚ)
    (et : String) (r : Option String) (tr : Trade) (st' : LedgerState)
    (hok : executeTrade st pid t ty s p et r = .ok (tr, st')) :
    tr.status = "FILLED" ∧ tr.total_amount = s * p ∧ tr.ticker = pyUpper t ∧
    tr.trade_type = pyUpper ty ∧
    (tr.trade_type = "SELL" → (tr.realized_pnl).isSome = true) ∧
    tr.cost_basis = none := by
  obtain ⟨h1, h2, h3, h4, h5, h6, h7, h8, h9, h10, h11, h12⟩ :=
    executeTrade_ok_record hok
  exact ⟨h8, h6, h2, h3, fun hs => h11 (h3.symm.trans hs), h10⟩

/-- Witness for C6 on the concrete SELL of 5 AAPL at 12. -/
theorem trade_record_contents_witness :
    w6Trade.status = "FILLED" ∧ w6Trade.total_amount = 5 * 12 ∧
    w6Trade.ticker = pyUpper "AAPL" ∧ w6Trade.trade_type = pyUpper "SELL" ∧
    (w6Trade.trade_type = "SELL" → (w6Trade.realized_pnl).isSome = true) ∧
    w6Trade.cost_basis = none := by
  have h1 : pyUpper "AAPL" = "AAPL" := by decide
  have h2 : pyUpper "SELL" = "SELL" := by decide
  have h3 : ("SELL" : String) ≠ "BUY" := by decide
  have hok : executeTrade wState "P" "AAPL" "SELL" 5 12 "MARKET" none =
      .ok (w6Trade, w6State) := by
    norm_num [executeTrade, executeSell, pyDiv, findPortfolio, findPosition,
      portfolioKey, positionKey, updateFirst, wState, wPortfolio, wPosition,
      h1, h2, h3, w6Trade, w6State]
  exact trade_record_contents wState "P" "AAPL" "SELL" 5 12 "MARKET" none
    w6Trade w6State hok

/-- C4 counterexample: an operation of the ledger — a BUY of -20 shares
at price 1, which `execute_trade` accepts — persists a Position row with
shares = -10 ≤ 0. -/
theorem zero_share_position_persisted_counterexample :
    exceptOk (executeTrade wState "P" "AAPL" "BUY" (-20) 1 "MARKET" none) = true ∧
    (findPosition (execTradeState wState "P" "AAPL" "BUY" (-20) 1 "MARKET" none)
        "P" "AAPL").map Position.shares = some (-10) ∧
    ((-10 : ℚ) ≤ 0) := by
  have h1 : pyUpper "AAPL" = "AAPL" := by decide
  have h2 : pyUpper "BUY" = "BUY" := by decide
  refine ⟨?_, ?_, by norm_num⟩ <;>
    norm_num [executeTrade, execTradeState, executeBuy, pyDiv, findPortfolio,
      findPosition, portfolioKey, positionKey, updateFirst, wState, wPortfolio,
      wPosition, h1, h2, exceptOk]

/-- C4 (amended): selling exactly all held shares deletes the Position
row entirely rather than leaving a zero-share row; and no execution of a
trade with positive shares and positive price ever persists a Position
with shares ≤ 0 (the unrestricted form fails because `execute_trade`
accepts non-positive share counts; see the counterexample). -/
theorem zero_share_positions_never_persisted (st : LedgerState)
    (pid t ty : String) (s p : ℚ) (et : String) (r : Option String)
    (hs : 0 < s) (hp : 0 < p)
    (hinv : ∀ q ∈ st.positions, 0 < q.shares) :
    (∀ q ∈ (execTradeState st pid t ty s p et r).positions, 0 < q.shares) ∧
    (∀ pf pos, findPortfolio st pid = some pf → pyUpper ty = "SELL" →
      findPosition st pid (pyUpper t) = some pos → pos.shares = s →
      st.positions.countP (positionKey pid (pyUpper t)) ≤ 1 →
      findPosition (execTradeState st pid t ty s p et r) pid (pyUpper t) = none) := by
  constructor
  · cases hres : executeTrade st pid t ty s p et r with
    | error e =>
      rw [execTradeState_of_error hres]
      exact hinv
    | ok pr =>
      obtain ⟨tr, st'⟩ := pr
      have hst : execTradeState st pid t ty s p et r = st' := by
        simp only [execTradeState, hres]
      rw [hst]
      obtain ⟨-, -, hbranch⟩ := executeTrade_ok_positions hres
      rcases hbranch with ⟨-, ⟨pos, hfp, -, hpos⟩ | ⟨-, hpos⟩⟩ |
        ⟨-, pos, hfp, hlt, -, -, ⟨-, hpos⟩ | ⟨hne, hpos⟩⟩
      · intro q hq
        rw [hpos] at hq
        rcases mem_updateFirst hq with hq | ⟨y, hy, rfl⟩
        · exact hinv q hq
        · have hy' : y = pos := Option.some.inj ((show findPosition st pid
            (pyUpper t) = some y from hy).symm.trans hfp)
          subst hy'
          have := hinv y (List.mem_of_find?_eq_some hy)
          show 0 < y.shares + s
          linarith
      · intro q hq
        rw [hpos] at hq
        rcases List.mem_append.mp hq with hq | hq
        · exact hinv q hq
        · rcases List.mem_singleton.mp hq with rfl
          exact hs
      · intro q hq
        rw [hpos] at hq
        exact hinv q (mem_removeFirst hq)
      · intro q hq
        rw [hpos] at hq
        rcases mem_updateFirst hq with hq | ⟨y, hy, rfl⟩
        · exact hinv q hq
        · have hy' : y = pos := Option.some.inj ((show findPosition st pid
            (pyUpper t) = some y from hy).symm.trans hfp)
          subst hy'
          have hle : s ≤ y.shares := not_lt.mp hlt
          have hlt2 : s < y.shares := lt_of_le_of_ne hle (fun h => hne h.symm)
          show 0 < y.shares - s
          linarith
  · intro pf pos hpf hsl hfp hfull hcount
    have hz : pos.shares ≠ 0 := by
      have := hinv pos (List.mem_of_find?_eq_some hfp)
      exact ne_of_gt this
    have hlt : ¬ pos.shares < s := by rw [hfull]; exact lt_irrefl s
    have hsucc := @executeTrade_sell_succeeds st pid t ty s p et r pf pos
      hpf hsl hfp hlt hz
    obtain ⟨pr, hres⟩ := exceptOk_exists hsucc
    obtain ⟨tr, st'⟩ := pr
    have hst : execTradeState st pid t ty s p et r = st' := by
      simp only [execTradeState, hres]
    rw [hst]
    obtain ⟨-, -, hbranch⟩ := executeTrade_ok_positions hres
    rcases hbranch with ⟨hb, -⟩ | ⟨-, pos', hfp', -, -, -, hbr⟩
    · exact absurd (hsl.symm.trans hb) (by decide)
    · have hpe : pos' = pos := Option.some.inj (hfp'.symm.trans hfp)
      subst hpe
      rcases hbr with ⟨-, hpos⟩ | ⟨hne, -⟩
      · show (st'.positions).find? (positionKey pid (pyUpper t)) = none
        rw [hpos]
        exact find?_removeFirst_of_unique hcount
      · exact absurd hfull hne

/-- Witness for C4 on `wState`: a full-exit SELL of all 10 AAPL shares
leaves only positive-share rows and no AAPL position row. -/
theorem zero_share_positions_never_persisted_witness :
    (∀ q ∈ (execTradeState wState "P" "AAPL" "SELL" 10 12 "MARKET" none).positions,
      0 < q.shares) ∧
    findPosition (execTradeState wState "P" "AAPL" "SELL" 10 12 "MARKET" none)
      "P" (pyUpper "AAPL") = none := by
  have h := zero_share_positions_never_persisted wState "P" "AAPL" "SELL" 10 12
    "MARKET" none (by norm_num) (by norm_num) (by decide)
  exact ⟨h.1, h.2 wPortfolio wPosition (by decide) (by decide) (by decide)
    (by decide) (by decide)⟩

/-- C2: the cost-basis math.  A successful BUY on an existing position
adds the shares, adds `Δs * p` to the cost basis, sets `average_cost =
cost_basis / shares`, and decreases cash by `Δs * p`; a first BUY
creates the position with `average_cost = p` and `cost_basis = Δs * p`;
a partial SELL of `Δs < shares₀` realizes `Δs * p − (Δs / shares₀) ·
cost₀`, increases cash by `Δs * p`, leaves `shares₀ − Δs` shares with
`cost₀ · ((shares₀ − Δs) / shares₀)` cost basis, and does not change
`average_cost`. -/
theorem cost_basis_math (st : LedgerState) (pid t ty : String) (Δs p : ℚ)
    (et : String) (r : Option String) (pf : Portfolio)
    (hpf : findPortfolio st pid = some pf) :
    (∀ pos₀, pyUpper ty = "BUY" → findPosition st pid (pyUpper t) = some pos₀ →
      0 < pos₀.shares → 0 < Δs → 0 < p → ¬ pf.current_cash < Δs * p →
      ∃ tr st', executeTrade st pid t ty Δs p et r = .ok (tr, st') ∧
        findPosition st' pid (pyUpper t) = some { pos₀ with
          shares := pos₀.shares + Δs,
          cost_basis := pos₀.cost_basis + Δs * p,
          average_cost := (pos₀.cost_basis + Δs * p) / (pos₀.shares + Δs) } ∧
        findPortfolio st' pid = some { pf with
          current_cash := pf.current_cash - Δs * p }) ∧
    (pyUpper ty = "BUY" → findPosition st pid (pyUpper t) = none →
      ¬ pf.current_cash < Δs * p →
      ∃ tr st', executeTrade st pid t ty Δs p et r = .ok (tr, st') ∧
        findPosition st' pid (pyUpper t) = some
          { portfolio_id := pid, ticker := pyUpper t, shares := Δs,
            average_cost := p, cost_basis := Δs * p, stop_loss := none } ∧
        findPortfolio st' pid = some { pf with
          current_cash := pf.current_cash - Δs * p }) ∧
    (∀ pos₀, pyUpper ty = "SELL" → findPosition st pid (pyUpper t) = some pos₀ →
      0 < Δs → Δs < pos₀.shares →
      ∃ tr st', executeTrade st pid t ty Δs p et r = .ok (tr, st') ∧
        tr.realized_pnl = some (Δs * p - Δs / pos₀.shares * pos₀.cost_basis) ∧
        findPosition st' pid (pyUpper t) = some { pos₀ with
          shares := pos₀.shares - Δs,
          cost_basis := pos₀.cost_basis * ((pos₀.shares - Δs) / pos₀.shares) } ∧
        findPortfolio st' pid = some { pf with
          current_cash := pf.current_cash + Δs * p }) := by
  refine ⟨?_, ?_, ?_⟩
  · intro pos₀ hb hfp hps hΔ hpp hcash
    have hok := @executeTrade_buy_succeeds st pid t ty Δs p et r pf hpf hb hcash
      (fun pos hfp2 => by
        have : pos = pos₀ := Option.some.inj (hfp2.symm.trans hfp)
        subst this
        exact ne_of_gt (by linarith))
    obtain ⟨pr, hres⟩ := exceptOk_exists hok
    obtain ⟨tr, st'⟩ := pr
    refine ⟨tr, st', hres, ?_, ?_⟩
    · obtain ⟨-, -, hbr⟩ := executeTrade_ok_positions hres
      rcases hbr with ⟨-, ⟨pos, hfp2, hnz2, hpos⟩ | ⟨hnone, -⟩⟩ | ⟨hsl2, -⟩
      · have hpe : pos = pos₀ := Option.some.inj (hfp2.symm.trans hfp)
        subst hpe
        show st'.positions.find? (positionKey pid (pyUpper t)) = _
        rw [hpos]
        exact find?_positions_update _ (fun q => rfl) (fun q => rfl) hfp
      · rw [hnone] at hfp; cases hfp
      · exact absurd (hb.symm.trans hsl2) (by decide)
    · rcases executeTrade_ok_cash hres hpf with ⟨-, hcashres⟩ | ⟨htyS, -⟩
      · obtain ⟨-, -, -, -, -, htot, -⟩ := executeTrade_ok_record hres
        rw [htot] at hcashres
        exact hcashres
      · obtain ⟨-, -, hty2, -⟩ := executeTrade_ok_record hres
        rw [hty2, hb] at htyS
        exact absurd htyS (by decide)
  · intro hb hfp hcash
    have hok := @executeTrade_buy_succeeds st pid t ty Δs p et r pf hpf hb hcash
      (fun pos hfp2 => by rw [hfp] at hfp2; cases hfp2)
    obtain ⟨pr, hres⟩ := exceptOk_exists hok
    obtain ⟨tr, st'⟩ := pr
    refine ⟨tr, st', hres, ?_, ?_⟩
    · obtain ⟨-, -, hbr⟩ := executeTrade_ok_positions hres
      rcases hbr with ⟨-, ⟨pos, hfp2, hnz2, hpos⟩ | ⟨-, hpos⟩⟩ | ⟨hsl2, -⟩
      · rw [hfp] at hfp2; cases hfp2
      · show st'.positions.find? (positionKey pid (pyUpper t)) = _
        rw [hpos, List.find?_append]
        rw [show st.positions.find? (positionKey pid (pyUpper t)) = none from hfp]
        simp [positionKey]
      · exact absurd (hb.symm.trans hsl2) (by decide)
    · rcases executeTrade_ok_cash hres hpf with ⟨-, hcashres⟩ | ⟨htyS, -⟩
      · obtain ⟨-, -, -, -, -, htot, -⟩ := executeTrade_ok_record hres
        rw [htot] at hcashres
        exact hcashres
      · obtain ⟨-, -, hty2, -⟩ := executeTrade_ok_record hres
        rw [hty2, hb] at htyS
        exact absurd htyS (by decide)
  · intro pos₀ hsl hfp hΔ hΔlt
    have hz : pos₀.shares ≠ 0 := ne_of_gt (lt_trans hΔ hΔlt)
    have hlt : ¬ pos₀.shares < Δs := not_lt.mpr (le_of_lt hΔlt)
    have hok := @executeTrade_sell_succeeds st pid t ty Δs p et r pf pos₀
      hpf hsl hfp hlt hz
    obtain ⟨pr, hres⟩ := exceptOk_exists hok
    obtain ⟨tr, st'⟩ := pr
    refine ⟨tr, st', hres, ?_, ?_, ?_⟩
    · obtain ⟨-, -, hbr⟩ := executeTrade_ok_positions hres
      rcases hbr with ⟨hb2, -⟩ | ⟨-, pos', hfp', -, -, hpnl, -⟩
      · exact absurd (hsl.symm.trans hb2) (by decide)
      · have hpe : pos' = pos₀ := Option.some.inj (hfp'.symm.trans hfp)
        subst hpe
        exact hpnl
    · obtain ⟨-, -, hbr⟩ := executeTrade_ok_positions hres
      rcases hbr with ⟨hb2, -⟩ | ⟨-, pos', hfp', -, -, -, hbranch⟩
      · exact absurd (hsl.symm.trans hb2) (by decide)
      · have hpe : pos' = pos₀ := Option.some.inj (hfp'.symm.trans hfp)
        subst hpe
        rcases hbranch with ⟨hfull, -⟩ | ⟨-, hpos⟩
        · exact absurd hfull (ne_of_gt hΔlt)
        · show st'.positions.find? (positionKey pid (pyUpper t)) = _
          rw [hpos]
          exact find?_positions_update _ (fun q => rfl) (fun q => rfl) hfp
    · rcases executeTrade_ok_cash hres hpf with ⟨htyB, -⟩ | ⟨-, hcashres⟩
      · obtain ⟨-, -, hty2, -⟩ := executeTrade_ok_record hres
        rw [hty2, hsl] at htyB
        exact absurd htyB (by decide)
      · obtain ⟨-, -, -, -, -, htot, -⟩ := executeTrade_ok_record hres
        rw [htot] at hcashres
        exact hcashres

/-- Witness for C2 on `wState`: a BUY of 3 AAPL at 20 on the existing
position, a first BUY of 2 MSFT at 5, and a partial SELL of 4 AAPL
at 15. -/
theorem cost_basis_math_witness :
    (∃ tr st', executeTrade wState "P" "AAPL" "BUY" 3 20 "MARKET" none =
        .ok (tr, st') ∧
      findPosition st' "P" (pyUpper "AAPL") = some { wPosition with
        shares := wPosition.shares + 3,
        cost_basis := wPosition.cost_basis + 3 * 20,
        average_cost := (wPosition.cost_basis + 3 * 20) / (wPosition.shares + 3) } ∧
      findPortfolio st' "P" = some { wPortfolio with
        current_cash := wPortfolio.current_cash - 3 * 20 }) ∧
    (∃ tr st', executeTrade wState "P" "MSFT" "BUY" 2 5 "MARKET" none =
        .ok (tr, st') ∧
      findPosition st' "P" (pyUpper "MSFT") = some
        { portfolio_id := "P", ticker := pyUpper "MSFT", shares := 2,
          average_cost := 5, cost_basis := 2 * 5, stop_loss := none } ∧
      findPortfolio st' "P" = some { wPortfolio with
        current_cash := wPortfolio.current_cash - 2 * 5 }) ∧
    (∃ tr st', executeTrade wState "P" "AAPL" "SELL" 4 15 "MARKET" none =
        .ok (tr, st') ∧
      tr.realized_pnl = some (4 * 15 - 4 / wPosition.shares * wPosition.cost_basis) ∧
      findPosition st' "P" (pyUpper "AAPL") = some { wPosition with
        shares := wPosition.shares - 4,
        cost_basis := wPosition.cost_basis * ((wPosition.shares - 4) / wPosition.shares) } ∧
      findPortfolio st' "P" = some { wPortfolio with
        current_cash := wPortfolio.current_cash + 4 * 15 }) := by
  have h1 := cost_basis_math wState "P" "AAPL" "BUY" 3 20 "MARKET" none
    wPortfolio (by decide)
  have h2 := cost_basis_math wState "P" "MSFT" "BUY" 2 5 "MARKET" none
    wPortfolio (by decide)
  have h3 := cost_basis_math wState "P" "AAPL" "SELL" 4 15 "MARKET" none
    wPortfolio (by decide)
  refine ⟨h1.1 wPosition (by decide) (by decide) (by decide) (by norm_num)
      (by norm_num) (by norm_num [wPortfolio]),
    h2.2.1 (by decide) (by decide) (by norm_num [wPortfolio]),
    h3.2.2 wPosition (by decide) (by decide) (by norm_num)
      (by norm_num [wPosition])⟩

/-- The success path of `create_daily_snapshot`: the only state change
is the appended snapshot, whose children are the mapped positions. -/
theorem createDailySnapshot_state {oracle : String → Option ℚ} {st : LedgerState}
    {pid : String} {d : ℕ} {snap : PortfolioSnapshot} {st' : LedgerState}
    (hok : createDailySnapshot oracle st pid d = .ok (snap, st')) :
    st' = { st with snapshots := st.snapshots ++ [snap] } ∧
    snap.position_snapshots = (positionsOf st pid).map (mkPositionSnapshot oracle) := by
  simp only [createDailySnapshot] at hok
  cases hpf : findPortfolio st pid with
  | none => rw [hpf] at hok; cases hok
  | some pf =>
    rw [hpf] at hok
    simp only [] at hok
    cases hlat : latestSnapshot (snapshotsOf st pid) with
    | none =>
      rw [hlat] at hok
      simp only [] at hok
      cases hok
      exact ⟨rfl, rfl⟩
    | some prev =>
      rw [hlat] at hok
      simp only [pyDiv] at hok
      by_cases hz : prev.total_equity = 0
      · rw [if_pos hz] at hok; cases hok
      · rw [if_neg hz] at hok
        simp only [] at hok
        cases hok
        exact ⟨rfl, rfl⟩

/-- Success of `create_daily_snapshot` when there is no prior snapshot. -/
theorem createDailySnapshot_ok_of_no_prev {oracle : String → Option ℚ}
    {st : LedgerState} {pid : String} {d : ℕ} {pf : Portfolio}
    (hpf : findPortfolio st pid = some pf)
    (hlat : latestSnapshot (snapshotsOf st pid) = none) :
    exceptOk (createDailySnapshot oracle st pid d) = true := by
  simp only [createDailySnapshot]
  rw [hpf]
  simp only []
  rw [hlat]
  rfl

/-- Success of `create_daily_snapshot` when the latest prior snapshot
has nonzero `total_equity`. -/
theorem createDailySnapshot_ok_of_prev_ne {oracle : String → Option ℚ}
    {st : LedgerState} {pid : String} {d : ℕ} {pf : Portfolio}
    {prev : PortfolioSnapshot} (hpf : findPortfolio st pid = some pf)
    (hlat : latestSnapshot (snapshotsOf st pid) = some prev)
    (hne : prev.total_equity ≠ 0) :
    exceptOk (createDailySnapshot oracle st pid d) = true := by
  simp only [createDailySnapshot]
  rw [hpf]
  simp only []
  rw [hlat]
  simp only [pyDiv]
  rw [if_neg hne]
  rfl

/-- The `daily_return` stored by a successful `create_daily_snapshot`. -/
theorem createDailySnapshot_daily_return {oracle : String → Option ℚ}
    {st : LedgerState} {pid : String} {d : ℕ} {snap : PortfolioSnapshot}
    {st' : LedgerState}
    (hok : createDailySnapshot oracle st pid d = .ok (snap, st')) :
    (latestSnapshot (snapshotsOf st pid) = none → snap.daily_return = 0) ∧
    (∀ prev, latestSnapshot (snapshotsOf st pid) = some prev →
      snap.daily_return =
        (snap.total_equity - prev.total_equity) / prev.total_equity * 100) := by
  simp only [createDailySnapshot] at hok
  cases hpf : findPortfolio st pid with
  | none => rw [hpf] at hok; cases hok
  | some pf =>
    rw [hpf] at hok
    simp only [] at hok
    cases hlat : latestSnapshot (snapshotsOf st pid) with
    | none =>
      rw [hlat] at hok
      simp only [] at hok
      cases hok
      exact ⟨fun _ => rfl, fun prev h => by cases h⟩
    | some prev =>
      rw [hlat] at hok
      simp only [pyDiv] at hok
      by_cases hz : prev.total_equity = 0
      · rw [if_pos hz] at hok; cases hok
      · rw [if_neg hz] at hok
        simp only [] at hok
        cases hok
        refine ⟨(fun h => by cases h), fun prev2 h => ?_⟩
        have : prev = prev2 := Option.some.inj h
        subst this
        rfl

/-- C7 counterexample: with a prior snapshot of `total_equity = 0`,
`create_daily_snapshot` raises a division-by-zero error instead of
producing a snapshot with `daily_return = 0.0`. -/
theorem daily_return_zero_equity_counterexample :
    createDailySnapshot (fun _ => none) c7State "P" 5 =
      .error .zeroDivision := by
  norm_num [createDailySnapshot, findPortfolio, portfolioKey, positionsOf,
    snapshotsOf, latestSnapshot, pyDiv, c7State, c7Portfolio, c7SnapZero,
    mkPositionSnapshot]

/-- C7 (amended): `daily_return` is 0.0 when the portfolio has no prior
snapshot; when the latest prior snapshot (by date) has nonzero
`total_equity`, `daily_return = (total_equity − prev.total_equity) /
prev.total_equity · 100`; and when the latest prior snapshot has
`total_equity = 0`, the call fails with a division-by-zero error rather
than defaulting to 0.0. -/
theorem daily_return_computation (oracle : String → Option ℚ) (st : LedgerState)
    (pid : String) (d : ℕ) (pf : Portfolio)
    (hpf : findPortfolio st pid = some pf) :
    (latestSnapshot (snapshotsOf st pid) = none →
      ∃ snap st', createDailySnapshot oracle st pid d = .ok (snap, st') ∧
        snap.daily_return = 0) ∧
    (∀ prev, latestSnapshot (snapshotsOf st pid) = some prev →
      prev.total_equity ≠ 0 →
      ∃ snap st', createDailySnapshot oracle st pid d = .ok (snap, st') ∧
        snap.daily_return =
          (snap.total_equity - prev.total_equity) / prev.total_equity * 100) ∧
    (∀ prev, latestSnapshot (snapshotsOf st pid) = some prev →
      prev.total_equity = 0 →
      createDailySnapshot oracle st pid d = .error .zeroDivision) := by
  refine ⟨?_, ?_, ?_⟩
  · intro hlat
    obtain ⟨pr, hres⟩ := exceptOk_exists (createDailySnapshot_ok_of_no_prev hpf hlat)
    obtain ⟨snap, st'⟩ := pr
    exact ⟨snap, st', hres, (createDailySnapshot_daily_return hres).1 hlat⟩
  · intro prev hlat hne
    obtain ⟨pr, hres⟩ :=
      exceptOk_exists (createDailySnapshot_ok_of_prev_ne hpf hlat hne)
    obtain ⟨snap, st'⟩ := pr
    exact ⟨snap, st', hres, (createDailySnapshot_daily_return hres).2 prev hlat⟩
  · intro prev hlat hz
    simp only [createDailySnapshot]
    rw [hpf]
    simp only []
    rw [hlat]
    simp only [pyDiv]
    rw [if_pos hz]

/-- Witness for C7 on concrete one-portfolio ledgers: no prior snapshot
(daily_return 0), a prior snapshot of equity 50 (the ratio formula), and
a prior snapshot of equity 0 (the division error). -/
theorem daily_return_computation_witness :
    (∃ snap st', createDailySnapshot (fun _ => none) wState "P" 5 = .ok (snap, st') ∧
      snap.daily_return = 0) ∧
    (∃ snap st', createDailySnapshot (fun _ => none) c7StateB "P" 5 = .ok (snap, st') ∧
      snap.daily_return =
        (snap.total_equity - c7SnapPrev.total_equity) / c7SnapPrev.total_equity * 100) ∧
    createDailySnapshot (fun _ => none) c7State "P" 5 = .error .zeroDivision := by
  have h1 := daily_return_computation (fun _ => none) wState "P" 5 wPortfolio (by decide)
  have h2 := daily_return_computation (fun _ => none) c7StateB "P" 5 c7Portfolio (by decide)
  have h3 := daily_return_computation (fun _ => none) c7State "P" 5 c7Portfolio (by decide)
  exact ⟨h1.1 (by decide), h2.2.1 c7SnapPrev (by decide) (by norm_num [c7SnapPrev]),
    h3.2.2 c7SnapZero (by decide) (by norm_num [c7SnapZero])⟩

/-- C8: `create_daily_snapshot` never mutates the portfolios relation
(hence `current_cash`), the positions relation, or the trades relation;
the only new state is the appended snapshot row (with its children
nested inside it).  On a failure the state is unchanged entirely. -/
theorem snapshot_frame (oracle : String → Option ℚ) (st : LedgerState)
    (pid : String) (d : ℕ) :
    (createSnapshotState oracle st pid d).portfolios = st.portfolios ∧
    (createSnapshotState oracle st pid d).positions = st.positions ∧
    (createSnapshotState oracle st pid d).trades = st.trades ∧
    ((createSnapshotState oracle st pid d).snapshots = st.snapshots ∨
      ∃ snap st', createDailySnapshot oracle st pid d = .ok (snap, st') ∧
        (createSnapshotState oracle st pid d).snapshots = st.snapshots ++ [snap]) := by
  cases hres : createDailySnapshot oracle st pid d with
  | error e =>
    have hw : createSnapshotState oracle st pid d = st := by
      simp only [createSnapshotState, hres]
    rw [hw]
    exact ⟨rfl, rfl, rfl, Or.inl rfl⟩
  | ok pr =>
    obtain ⟨snap, st'⟩ := pr
    obtain ⟨hst, -⟩ := createDailySnapshot_state hres
    have hw : createSnapshotState oracle st pid d = st' := by
      simp only [createSnapshotState, hres]
    refine ⟨?_, ?_, ?_, Or.inr ⟨snap, st', rfl, ?_⟩⟩ <;> rw [hw, hst]

/-- C9: a missing oracle price never makes `create_daily_snapshot` fail
— its success is independent of the oracle; a position whose ticker has
no oracle price is valued at its own `average_cost`; and the snapshot's
children are exactly the per-position valuations. -/
theorem oracle_degradation (o1 o2 : String → Option ℚ) (st : LedgerState)
    (pid : String) (d : ℕ) (pos : Position) (h : o1 pos.ticker = none) :
    exceptOk (createDailySnapshot o1 st pid d) =
      exceptOk (createDailySnapshot o2 st pid d) ∧
    (mkPositionSnapshot o1 pos).current_price = pos.average_cost ∧
    (∀ snap st', createDailySnapshot o1 st pid d = .ok (snap, st') →
      snap.position_snapshots = (positionsOf st pid).map (mkPositionSnapshot o1)) := by
  refine ⟨?_, ?_, ?_⟩
  · simp only [createDailySnapshot]
    cases hpf : findPortfolio st pid with
    | none => rfl
    | some pf =>
      simp only []
      cases hlat : latestSnapshot (snapshotsOf st pid) with
      | none => rfl
      | some prev =>
        simp only [pyDiv]
        by_cases hz : prev.total_equity = 0
        · simp only [if_pos hz]
        · simp only [if_neg hz]; rfl
  · simp only [mkPositionSnapshot, h]
  · intro snap st' hok
    exact (createDailySnapshot_state hok).2

/-- Witness for C9: on `wState` with an oracle that knows no prices, the
snapshot succeeds exactly as with any other oracle, and the AAPL
position is valued at its average cost. -/
theorem oracle_degradation_witness :
    exceptOk (createDailySnapshot (fun _ => none) wState "P" 5) =
      exceptOk (createDailySnapshot (fun _ => some 7) wState "P" 5) ∧
    (mkPositionSnapshot (fun _ => none) wPosition).current_price =
      wPosition.average_cost ∧
    (∀ snap st', createDailySnapshot (fun _ => none) wState "P" 5 = .ok (snap, st') →
      snap.position_snapshots =
        (positionsOf wState "P").map (mkPositionSnapshot (fun _ => none))) :=
  oracle_degradation (fun _ => none) (fun _ => some 7) wState "P" 5 wPosition rfl

/-- C10: `create_portfolio` writes an initial snapshot with
`total_equity = cash_balance = starting_cash`, zero positions value, and
zero return metrics, so the new portfolio has a snapshot from the moment
of creation. -/
theorem initial_snapshot_on_create (st : LedgerState) (pid pname : String)
    (d : Option String) (c : ℚ) (now : ℕ) :
    (createPortfolio st pid pname d c now).2.snapshots =
      st.snapshots ++
        [{ portfolio_id := pid, snapshot_date := now, total_equity := c,
           cash_balance := c, total_positions_value := 0, daily_return := 0,
           total_return := 0, total_return_pct := 0,
           position_snapshots := [] }] ∧
    snapshotsOf (createPortfolio st pid pname d c now).2 pid ≠ [] ∧
    (createPortfolio st pid pname d c now).1.current_cash = c ∧
    (createPortfolio st pid pname d c now).1.starting_cash = c := by
  refine ⟨rfl, ?_, rfl, rfl⟩
  simp [snapshotsOf, createPortfolio, createPortfolioSnapshotRow,
    List.filter_append]

end DCAMOON
